import Mathlib

/-
Verification of the `ai-cli` repository (trvswgnr/ai-cli).

The development shallowly embeds the final iteration of `src/index.ts`
(the streaming code-block scanner `printStream`, `highlightCode`, the
argument parser from `src/args.ts`, and the command orchestrator
`processAiCommand` / `main`) together with the SQLite-backed conversation
store (`saveMessage`, `getCurrentConversationId`, `getConversation`,
`createConversation`, `setCurrentConversation`).

Text is modelled as `List Char` (the `TextDecoder` with `stream: true`
guarantees fragments are decoded on character boundaries, so the scanner
operates on character sequences).  The external styling libraries
(`chalk.dim`, `cli-highlight`) are abstracted as a `Styler` record; the
SQLite database is modelled as in-memory tables with a logical clock for
`new Date().toISOString()` timestamps and a counter supply for `nanoid()`
identifiers (foreign keys are not enforced: `bun:sqlite` keeps SQLite's
default `foreign_keys = OFF`).
-/

namespace AiCli

/-! ## Characters and the fence marker -/

/-- The backtick character (written numerically). -/
def tick : Char := Char.ofNat 96

/-- The newline character (`NEWLINE` in the source). -/
def nl : Char := '\n'

/-- `CODE_BLOCK_MD`, the 3-backtick fence marker. -/
def CODE_BLOCK_MD : List Char := [tick, tick, tick]

/-! ## String searching (JS `indexOf` / `lastIndexOf` for the marker) -/

/-- First index `≥ i` (reported absolutely) at which the fence marker occurs,
scanning the suffix `s`. -/
def findMarkerAux : List Char → Nat → Option Nat
  | [], _ => none
  | c :: cs, i =>
    if CODE_BLOCK_MD.isPrefixOf (c :: cs) then some i else findMarkerAux cs (i + 1)

/-- `buffer.indexOf(CODE_BLOCK_MD)`; `none` models `-1`. -/
def indexOfMarker (s : List Char) : Option Nat := findMarkerAux s 0

/-- `buffer.indexOf(CODE_BLOCK_MD, j)`; `none` models `-1`. -/
def indexOfMarkerFrom (s : List Char) (j : Nat) : Option Nat :=
  (indexOfMarker (s.drop j)).map (· + j)

/-- Helper for `lastIndexOfMarker`, carrying the last match seen so far. -/
def lastMarkerAux : List Char → Nat → Option Nat → Option Nat
  | [], _, acc => acc
  | c :: cs, i, acc =>
    lastMarkerAux cs (i + 1) (if CODE_BLOCK_MD.isPrefixOf (c :: cs) then some i else acc)

/-- `buffer.lastIndexOf(CODE_BLOCK_MD)`; `none` models `-1`. -/
def lastIndexOfMarker (s : List Char) : Option Nat := lastMarkerAux s 0 none

/-- Number of (possibly overlapping) occurrences of the fence marker in `s`. -/
def countMarker : List Char → Nat
  | [] => 0
  | c :: cs => (if CODE_BLOCK_MD.isPrefixOf (c :: cs) then 1 else 0) + countMarker cs

/-! ## JS string splitting/joining on newlines (`text.split(NEWLINE)`, `join`) -/

/-- JS `text.split("\n")`: always at least one piece, trailing separator
yields a trailing empty piece. -/
def splitOnNl : List Char → List (List Char)
  | [] => [[]]
  | c :: cs =>
    if c = nl then [] :: splitOnNl cs
    else
      match splitOnNl cs with
      | [] => [[c]]
      | line :: rest => (c :: line) :: rest

/-- JS `lines.join("\n")`. -/
def joinNl : List (List Char) → List Char
  | [] => []
  | [l] => l
  | l :: ls => l ++ nl :: joinNl ls

/-! ## The external styling capability (`chalk.dim`, `cli-highlight`) -/

/-- Abstraction of the imported styling libraries: `supportsLanguage` and
`highlight` from `cli-highlight`, `dim` from `chalk`. -/
structure Styler where
  supportsLanguage : List Char → Bool
  highlight : List Char → List Char → List Char
  dim : List Char → List Char

/-- `highlightCode` (final version, `src/index.ts` lines 1034-1049):
style a complete fenced block; pass any other text through verbatim. -/
def highlightCode (st : Styler) (text : List Char) : List Char :=
  if ¬ CODE_BLOCK_MD.isPrefixOf text then text
  else
    let lines := splitOnNl text
    match lines.head? with
    | none => text
    | some firstLine =>
      if firstLine = [] then text
      else
        let language := if 3 < firstLine.length then firstLine.drop 3 else []
        let code := joinNl ((lines.drop 1).dropLast)
        let highlightedCode :=
          if st.supportsLanguage language then st.highlight language code else code
        st.dim CODE_BLOCK_MD ++ (if language ≠ [] then st.dim language else [])
          ++ nl :: (highlightedCode ++ nl :: st.dim CODE_BLOCK_MD)

/-! ## The scanner (`printStream`, `src/index.ts` lines 1145-1196) -/

/-- A terminal write: either raw text written as-is, or a buffered span
written through `highlightCode`. -/
inductive Wr where
  | plain (s : List Char)
  | block (s : List Char)
deriving DecidableEq

/-- Render one write with a given styler (what actually reaches stdout). -/
def renderWr (st : Styler) : Wr → List Char
  | .plain s => s
  | .block s => highlightCode st s

/-- De-styled content of a write: the raw span it was produced from. -/
def deStyle (ws : List Wr) : List Char := (ws.map (fun w => match w with
  | .plain s => s
  | .block s => s)).flatten

/-- The inner `while (buffer.includes(CODE_BLOCK_MD))` loop of `printStream`,
with explicit fuel for structural recursion.  Each executed iteration
consumes at least 6 characters of the buffer, so `fuel := buffer.length`
never runs out (proved below). -/
def processBufferFuel : Nat → List Char → List Wr × List Char
  | 0, buf => ([], buf)
  | fuel + 1, buf =>
    match indexOfMarker buf with
    | none => ([], buf)
    | some start =>
      match indexOfMarkerFrom buf (start + 3) with
      | none => ([], buf)
      | some e =>
        let pre := buf.take start
        let codeBlock := (buf.drop start).take (e + 3 - start)
        let rest := buf.drop (e + 3)
        let r := processBufferFuel fuel rest
        (.plain pre :: .block codeBlock :: r.1, r.2)

/-- The inner code-block loop: emits `plain` text before each complete
block, a `block` write for each complete block, and returns the residual
buffer. -/
def processBuffer (buf : List Char) : List Wr × List Char :=
  processBufferFuel buf.length buf

/-- Scanner state across fragment arrivals. -/
structure ScanState where
  buffer : List Char
  out : List Wr
  fullResponse : List Char
deriving DecidableEq

def initState : ScanState := { buffer := [], out := [], fullResponse := [] }

/-- One iteration of `printStream`'s read loop on a decoded chunk:
append to buffer and `fullResponse`, consume complete code blocks, then
flush the remainder as plain text if no marker is left. -/
def stepChunk (st : ScanState) (chunk : List Char) : ScanState :=
  let buffer1 := st.buffer ++ chunk
  let fullResponse1 := st.fullResponse ++ chunk
  let pb := processBuffer buffer1
  if lastIndexOfMarker pb.2 = none then
    { buffer := [], out := st.out ++ pb.1 ++ [.plain pb.2], fullResponse := fullResponse1 }
  else
    { buffer := pb.2, out := st.out ++ pb.1, fullResponse := fullResponse1 }

/-- The `done` branch of `printStream`: write the residual buffer through
`highlightCode`, append it (again) to `fullResponse`, then write `"\n"`. -/
def finishStream (st : ScanState) : ScanState :=
  if st.buffer = [] then { st with out := st.out ++ [.plain [nl]] }
  else
    { st with out := st.out ++ [.block st.buffer, .plain [nl]],
              fullResponse := st.fullResponse ++ st.buffer }

/-- `printStream` on a whole stream of decoded fragments: final state,
containing every stdout write (in order) and the returned `fullResponse`. -/
def printStream (frags : List (List Char)) : ScanState :=
  finishStream (frags.foldl stepChunk initState)

/-- Everything `printStream` writes to the terminal, concatenated, under a
given styler. -/
def renderOut (st : Styler) (frags : List (List Char)) : List Char :=
  ((printStream frags).out.map (renderWr st)).flatten

/-- Concrete styler used for concrete evaluations: `dim` prefixes an ESC
character (as ANSI styling does), highlighting is the identity. -/
def stTest : Styler :=
  { supportsLanguage := fun _ => true
    highlight := fun _ code => code
    dim := fun s => Char.ofNat 27 :: s }

/-! ## The conversation store (`src/unnamed/part_002`)

The SQLite tables become in-memory lists kept in insertion order.
`new Date().toISOString()` becomes a strictly increasing logical clock
(successive wall-clock readings, compared as ISO strings, are monotone),
and `nanoid()` becomes a counter supply of fresh identifiers.  SQL
`ORDER BY` is modelled by a stable insertion sort on the queried key.
Foreign-key clauses are declared but not enforced (SQLite's default). -/

inductive Role where
  | system
  | user
  | assistant
deriving DecidableEq

/-- A row of the `conversations` table. -/
structure Conv where
  id : Nat
  createdAt : Nat
  updatedAt : Nat
deriving DecidableEq

/-- A row of the `messages` table. -/
structure Msg where
  id : Nat
  conversationId : Nat
  role : Role
  content : List Char
  createdAt : Nat
deriving DecidableEq

/-- A row of the `current_conversation` table. -/
structure CurrentRow where
  rowId : Nat
  conversationId : Nat
  updatedAt : Nat
deriving DecidableEq

/-- The whole database plus the clock and id supply. -/
structure Store where
  conversations : List Conv
  messages : List Msg
  current : List CurrentRow
  clock : Nat
  nextId : Nat
deriving DecidableEq

def emptyStore : Store :=
  { conversations := [], messages := [], current := [], clock := 0, nextId := 0 }

/-- `new Date().toISOString()`: read the clock and advance it. -/
def tickClock (db : Store) : Nat × Store := (db.clock, { db with clock := db.clock + 1 })

/-- `nanoid()`: a fresh collision-free identifier. -/
def nanoid (db : Store) : Nat × Store := (db.nextId, { db with nextId := db.nextId + 1 })

/-- Stable ascending insertion by key (used for SQL `ORDER BY k ASC`). -/
def insertAsc {α : Type} (key : α → Nat) (x : α) : List α → List α
  | [] => [x]
  | y :: ys => if key y ≤ key x then y :: insertAsc key x ys else x :: y :: ys

/-- Sort ascending by key. -/
def sortAsc {α : Type} (key : α → Nat) : List α → List α
  | [] => []
  | x :: xs => insertAsc key x (sortAsc key xs)

/-- Stable descending insertion by key (used for SQL `ORDER BY k DESC`). -/
def insertDesc {α : Type} (key : α → Nat) (x : α) : List α → List α
  | [] => [x]
  | y :: ys => if key x ≤ key y then y :: insertDesc key x ys else x :: y :: ys

/-- Sort descending by key. -/
def sortDesc {α : Type} (key : α → Nat) : List α → List α
  | [] => []
  | x :: xs => insertDesc key x (sortDesc key xs)

/-- `createConversation`: fresh id, one new `conversations` row. -/
def createConversation (db : Store) : Nat × Store :=
  let p := nanoid db
  let conversationId := p.1
  let q := tickClock p.2
  let now := q.1
  (conversationId,
   { q.2 with conversations :=
      q.2.conversations ++ [{ id := conversationId, createdAt := now, updatedAt := now }] })

/-- `setCurrentConversation`: `DELETE FROM current_conversation` then insert
the single row `(1, conversationId, now)`. -/
def setCurrentConversation (db : Store) (conversationId : Nat) : Store :=
  let q := tickClock db
  { q.2 with current := [{ rowId := 1, conversationId := conversationId, updatedAt := q.1 }] }

/-- `getCurrentConversationId`:
`SELECT conversationId FROM current_conversation ORDER BY updatedAt DESC LIMIT 1`. -/
def getCurrentConversationId (db : Store) : Option Nat :=
  ((sortDesc (fun r => r.updatedAt) db.current).head?).map (fun r => r.conversationId)

/-- Argument record of `saveMessage`. -/
structure SaveMessageOptions where
  conversationId : Option Nat := none
  role : Role
  content : List Char
  createNewConversation : Bool := false

/-- `saveMessage`: create a conversation when requested or when no id is
given, bump the conversation's `updatedAt`, point `current_conversation`
at it, and append the message row.  Returns the conversation id. -/
def saveMessage (db : Store) (options : SaveMessageOptions) : Nat × Store :=
  let p :=
    if options.createNewConversation then createConversation db
    else
      match options.conversationId with
      | none => createConversation db
      | some cid => (cid, db)
  let conversationId := p.1
  let q := tickClock p.2
  let now := q.1
  let db2 :=
    { q.2 with conversations :=
        q.2.conversations.map (fun c =>
          if c.id = conversationId then { c with updatedAt := now } else c) }
  let db3 := setCurrentConversation db2 conversationId
  let r := nanoid db3
  let messageId := r.1
  (conversationId,
   { r.2 with messages :=
      r.2.messages ++ [{ id := messageId, conversationId := conversationId,
                         role := options.role, content := options.content,
                         createdAt := now }] })

/-- `getConversation`:
`SELECT ... FROM messages WHERE conversationId = ? ORDER BY createdAt ASC`. -/
def getConversation (db : Store) (conversationId : Nat) : List Msg :=
  sortAsc (fun m => m.createdAt)
    (db.messages.filter (fun m => m.conversationId == conversationId))

/-- `listConversations`:
`SELECT id, updatedAt FROM conversations ORDER BY updatedAt DESC`. -/
def listConversations (db : Store) : List (Nat × Nat) :=
  (sortDesc (fun c => c.updatedAt) db.conversations).map (fun c => (c.id, c.updatedAt))

/-! ## The argument parser (`src/args.ts`, instantiated at `OPTIONS_CONFIG`)

The final `OPTIONS_CONFIG` has the options `help` (`-h`), `url` (`-u`),
`search` (`-s`), `version` (`-v`) and `new` (`-n`); none is `required`.
A string option's value is `undefined` in JS when the argument has no
`=` part, which is modelled by `Option (List Char)` (`none` = undefined;
the default for `url` is the empty string `some []`). -/

/-- The mutable `options` record built by `ArgumentParser`. -/
structure OptionsRec where
  help : Bool
  url : Option (List Char)
  search : Bool
  version : Bool
  new : Bool
deriving DecidableEq

/-- Defaults from `OPTIONS_CONFIG`. -/
def defaultOptions : OptionsRec :=
  { help := false, url := some [], search := false, version := false, new := false }

/-- JS `value.toLowerCase() === "true"` with `value === undefined ↦ true`. -/
def boolVal : Option (List Char) → Bool
  | none => true
  | some v => v.map Char.toLower == "true".toList

/-- `parseOption`: split at `=`, strip leading dashes, look the key up in
`OPTIONS_CONFIG` (short name or long name, in declaration order), then
assign the option. -/
def parseOption (o : OptionsRec) (arg : List Char) : Except (List Char) OptionsRec :=
  let parts := arg.splitOn '='
  let keyRaw := parts.headD []
  let value : Option (List Char) := parts[1]?
  if keyRaw = [] then .error ("Invalid option: ".toList ++ arg)
  else
    let key := keyRaw.dropWhile (fun c => c = '-')
    if key = "h".toList ∨ key = "help".toList then .ok { o with help := boolVal value }
    else if key = "u".toList ∨ key = "url".toList then .ok { o with url := value }
    else if key = "s".toList ∨ key = "search".toList then .ok { o with search := boolVal value }
    else if key = "v".toList ∨ key = "version".toList then .ok { o with version := boolVal value }
    else if key = "n".toList ∨ key = "new".toList then .ok { o with new := boolVal value }
    else .error ("Unknown option ".toList ++ key)

/-- JS `promptParts.join(" ")`. -/
def joinSpace : List (List Char) → List Char
  | [] => []
  | [l] => l
  | l :: ls => l ++ ' ' :: joinSpace ls

/-- The loop body of `ArgumentParser.parse`: options start with `-`, other
non-empty arguments become prompt parts.  (The trailing `required`
validation loop is a no-op: no option is `required`.) -/
def parseArgsAux : List (List Char) → OptionsRec → List (List Char) →
    Except (List Char) (List Char × OptionsRec)
  | [], o, promptParts => .ok (joinSpace promptParts, o)
  | arg :: rest, o, promptParts =>
    if arg = [] then parseArgsAux rest o promptParts
    else if ['-'].isPrefixOf arg then
      match parseOption o arg with
      | .error e => .error e
      | .ok o2 => parseArgsAux rest o2 promptParts
    else parseArgsAux rest o (promptParts ++ [arg])

/-- `parseArgs(args, OPTIONS_CONFIG)`: prompt and parsed options, or a
thrown error message. -/
def parseArgs (args : List (List Char)) : Except (List Char) (List Char × OptionsRec) :=
  parseArgsAux args defaultOptions []

/-! ## The orchestrator (`processAiCommand`, `genStreamResponse`, `main`)

The environment, the provider's streamed response, and the database are
inputs; the outcome records the thrown-or-returned result, the final
database, `console.log` lines, the single provider request made (if any),
and the terminal writes of `printStream`. -/

/-- The two credential environment variables. -/
structure Env where
  anthropicKey : Option (List Char)
  perplexityKey : Option (List Char)

/-- The provider `Response`: `ok`, the diagnostic body used by
`throw await response.json()`, and the decoded body fragments (if any). -/
structure ResponseModel where
  ok : Bool
  errorBody : List Char
  body : Option (List (List Char))

/-- The single outbound provider request (which SDK, credential, prompt). -/
structure RequestRec where
  search : Bool
  apiKey : List Char
  sentPrompt : List Char
deriving DecidableEq

/-- `throw`n value or normal return of `processAiCommand`. -/
inductive CmdResult where
  | ok
  | err (msg : List Char)
deriving DecidableEq

/-- Observable outcome of one `processAiCommand` invocation. -/
structure CmdOutcome where
  result : CmdResult
  db : Store
  logs : List (List Char)
  request : Option RequestRec
  terminal : List Wr

/-- Payload of `genStreamResponse`. -/
structure GenPayload where
  apiKey : List Char
  prompt : List Char
  search : Bool
  url : Option (List Char)
  conversationId : Option Nat

/-- JS template interpolation of a possibly-`undefined` string. -/
def urlText : Option (List Char) → List Char
  | some u => u
  | none => "undefined".toList

/-- `conversation.map(msg => role + ": " + content).join("\n\n")`. -/
def roleText : Role → List Char
  | .system => "system".toList
  | .user => "user".toList
  | .assistant => "assistant".toList

/-- JS `array.join("\n\n")`. -/
def joinTwoNl : List (List Char) → List Char
  | [] => []
  | [l] => l
  | l :: ls => l ++ "\n\n".toList ++ joinTwoNl ls

def formatHistory (msgs : List Msg) : List Char :=
  joinTwoNl (msgs.map (fun m => roleText m.role ++ ": ".toList ++ m.content))

/-- `genStreamResponse` (final version, `src/index.ts` lines 915-962):
persist the user's turn when a conversation is active, then build the
provider request — Perplexity with an optional `inurl:` suffix in search
mode, otherwise Anthropic with the conversation history stuffed into the
prompt. -/
def genStreamResponse (p : GenPayload) (db0 : Store) : RequestRec × Store :=
  let db :=
    match p.conversationId with
    | some cid =>
      (saveMessage db0 { conversationId := some cid, role := .user, content := p.prompt }).2
    | none => db0
  if p.search then
    let sp :=
      if p.url = some [] then p.prompt
      else p.prompt ++ " inurl:".toList ++ urlText p.url
    ({ search := true, apiKey := p.apiKey, sentPrompt := sp }, db)
  else
    let fullPrompt :=
      match p.conversationId with
      | some cid =>
        let conversation := getConversation db cid
        if conversation.length > 0 then
          formatHistory conversation ++ "\n\nuser: ".toList ++ p.prompt
            ++ "\n\nassistant:".toList
        else p.prompt
      | none => p.prompt
    ({ search := false, apiKey := p.apiKey, sentPrompt := fullPrompt }, db)

/-- The system message content used when starting a conversation. -/
def systemPrompt : List Char := "You are Claude, a helpful AI assistant.".toList

def newConvLog (cid : Nat) : List Char :=
  "Starting new conversation: ".toList ++ (Nat.repr cid).toList

def continueLog (cid : Nat) : List Char :=
  "Continuing conversation: ".toList ++ (Nat.repr cid).toList

/-- The conversation-selection block of `processAiCommand`
(`src/index.ts` lines 1086-1112, the `!options.search` branch): honour
the `new` flag, otherwise reuse the current conversation or create one. -/
def selectConversation (db : Store) (newFlag : Bool) : Nat × Store × List (List Char) :=
  if newFlag then
    let p := saveMessage db
      { role := .system, content := systemPrompt, createNewConversation := true }
    (p.1, p.2, [newConvLog p.1])
  else
    match getCurrentConversationId db with
    | none =>
      let p := saveMessage db
        { role := .system, content := systemPrompt, createNewConversation := true }
      (p.1, p.2, [newConvLog p.1])
    | some cid => (cid, db, [continueLog cid])

/-- `processAiCommand` from the conversation-persistence block onward
(`src/index.ts` lines 1085-1143), after the credential for the selected
provider has been resolved to `apiKey`. -/
def commandCore (apiKey : List Char) (prompt : List Char) (options : OptionsRec)
    (resp : ResponseModel) (db0 : Store) : CmdOutcome :=
  let sel :=
    if options.search then (none, db0, ([] : List (List Char)))
    else
      let s := selectConversation db0 options.new
      (some s.1, s.2.1, s.2.2)
  let conversationId := sel.1
  let db1 := sel.2.1
  let logs := sel.2.2
  let g := genStreamResponse
    { apiKey := apiKey, prompt := prompt, search := options.search,
      url := options.url, conversationId := conversationId } db1
  let request := g.1
  let db2 := g.2
  if resp.ok = false then
    { result := .err resp.errorBody, db := db2, logs := logs,
      request := some request, terminal := [] }
  else
    match resp.body with
    | none =>
      { result := .err "no body in response".toList, db := db2, logs := logs,
        request := some request, terminal := [] }
    | some frags =>
      let st := printStream frags
      let db3 :=
        if conversationId.isSome && !options.search then
          (saveMessage db2 { conversationId := conversationId, role := .assistant,
                             content := st.fullResponse }).2
        else db2
      { result := .ok, db := db3, logs := logs,
        request := some request, terminal := st.out }

/-- `USAGE` template literal. -/
def USAGE : List Char :=
  "\nUsage: ai <prompt>\n\nExample:\nai What is the capital of France?\n".toList

/-- JS `key.padEnd(20)`. -/
def padEnd20 (s : List Char) : List Char := s ++ List.replicate (20 - s.length) ' '

def optionLine (sh : List Char) (key : List Char) (desc : List Char) : List Char :=
  "  ".toList ++ sh ++ "--".toList ++ padEnd20 key ++ " ".toList ++ desc

/-- `HELP_MESSAGE`: usage plus one entry per option of `OPTIONS_CONFIG`. -/
def HELP_MESSAGE : List Char :=
  USAGE ++ "\nOptions:".toList
    ++ optionLine "-h, ".toList "help".toList "Show help message".toList
    ++ optionLine "-u, ".toList "url".toList "Search a specific URL".toList
    ++ optionLine "-s, ".toList "search".toList "Search the web".toList
    ++ optionLine "-v, ".toList "version".toList "Show version number".toList
    ++ optionLine "-n, ".toList "new".toList "Start a new conversation".toList

/-- The version read from `package.json` (external to `src/`; its value is
irrelevant to every claim). -/
def packageVersion : List Char := []

/-- `processAiCommand` (final version, `src/index.ts` lines 1051-1143):
credential check, argument parsing, help/version/usage handling, search
forcing, conversation bookkeeping, the provider call, response checks,
streaming, and persisting the assistant's reply. -/
def processAiCommand (env : Env) (argv : List (List Char)) (resp : ResponseModel)
    (db : Store) : CmdOutcome :=
  match env.anthropicKey with
  | none =>
    { result := .err "ANTHROPIC_API_KEY must be set as an environment variable".toList,
      db := db, logs := [], request := none, terminal := [] }
  | some anthropicKey =>
    match parseArgs argv with
    | .error e => { result := .err e, db := db, logs := [], request := none, terminal := [] }
    | .ok pr =>
      let prompt := pr.1
      let options := pr.2
      if options.help then
        { result := .ok, db := db, logs := [HELP_MESSAGE], request := none, terminal := [] }
      else if options.version then
        { result := .ok, db := db, logs := ["v".toList ++ packageVersion],
          request := none, terminal := [] }
      else if prompt = [] then
        { result := .err ("Error: prompt is required\n".toList ++ HELP_MESSAGE),
          db := db, logs := [], request := none, terminal := [] }
      else if options.search = true ∨ options.url ≠ some [] then
        match env.perplexityKey with
        | none =>
          { result := .err "PERPLEXITY_API_KEY must be set as an environment variable".toList,
            db := db, logs := [], request := none, terminal := [] }
        | some perplexityKey =>
          commandCore perplexityKey prompt { options with search := true } resp db
      else
        commandCore anthropicKey prompt options resp db

/-- `await main().catch(console.error)`: any thrown error is caught and
logged, so the process always terminates with exit status 0. -/
def runMain (env : Env) (argv : List (List Char)) (resp : ResponseModel)
    (db : Store) : Nat × CmdOutcome :=
  let r := processAiCommand env argv resp db
  match r.result with
  | .err _ => (0, r)
  | .ok => (0, r)

/-! ## Lemmas about marker search -/

theorem findMarkerAux_nil (i : Nat) : findMarkerAux [] i = none := rfl

theorem indexOfMarker_nil : indexOfMarker [] = none := rfl

theorem lastIndexOfMarker_nil : lastIndexOfMarker [] = none := rfl

/-- The marker is a prefix of anything it is prepended to. -/
theorem marker_isPrefixOf_append (t : List Char) :
    CODE_BLOCK_MD.isPrefixOf (CODE_BLOCK_MD ++ t) = true := by
  simp [CODE_BLOCK_MD, List.isPrefixOf]

/-- Search finds a marker sitting at the scan head. -/
theorem findMarkerAux_of_marker {s : List Char} (i : Nat)
    (h : CODE_BLOCK_MD.isPrefixOf s = true) : findMarkerAux s i = some i := by
  match s with
  | [] => simp [CODE_BLOCK_MD, List.isPrefixOf] at h
  | c :: cs => simp [findMarkerAux, h]

/-- A marker prefix found inside a `take` is a marker prefix of the whole
list. -/
theorem isPrefixOf_of_take :
    ∀ (l u : List Char) (j : Nat), l.isPrefixOf (u.take j) = true → l.isPrefixOf u = true
  | [], u, _, _ => by cases u <;> rfl
  | _ :: _, [], _, h => by simp [List.isPrefixOf] at h
  | _ :: _, _ :: _, 0, h => by simp [List.isPrefixOf] at h
  | a :: l2, b :: u2, j + 1, h => by
    simp only [List.take_succ_cons, List.isPrefixOf, Bool.and_eq_true] at h ⊢
    exact ⟨h.1, isPrefixOf_of_take l2 u2 j h.2⟩

/-- A list with a marker prefix has length at least 3. -/
theorem marker_isPrefixOf_length :
    ∀ (u : List Char), CODE_BLOCK_MD.isPrefixOf u = true → 3 ≤ u.length
  | [], h => by simp [CODE_BLOCK_MD, List.isPrefixOf] at h
  | [_], h => by simp [CODE_BLOCK_MD, List.isPrefixOf] at h
  | [_, _], h => by simp [CODE_BLOCK_MD, List.isPrefixOf] at h
  | _ :: _ :: _ :: _, _ => by simp

/-- Forward search reports the first occurrence: every position strictly
before the reported one carries no marker. -/
theorem findMarkerAux_min :
    ∀ (s : List Char) (i j : Nat), findMarkerAux s i = some j →
      ∀ d, i + d < j → CODE_BLOCK_MD.isPrefixOf (s.drop d) = false
  | [], _, _, h => by simp [findMarkerAux] at h
  | c :: cs, i, j, h => by
    intro d hd
    simp only [findMarkerAux] at h
    by_cases hp : CODE_BLOCK_MD.isPrefixOf (c :: cs) = true
    · rw [if_pos hp] at h
      simp only [Option.some.injEq] at h
      exact absurd hd (by omega)
    · rw [if_neg hp] at h
      cases d with
      | zero => simpa using eq_false_of_ne_true hp
      | succ e => simpa using findMarkerAux_min cs (i + 1) j h e (by omega)

/-- If no position carries a marker, forward search fails. -/
theorem findMarkerAux_eq_none :
    ∀ (s : List Char) (i : Nat),
      (∀ d, CODE_BLOCK_MD.isPrefixOf (s.drop d) = false) → findMarkerAux s i = none
  | [], _, _ => rfl
  | c :: cs, i, h => by
    have h0 : CODE_BLOCK_MD.isPrefixOf (c :: cs) = false := by simpa using h 0
    simp only [findMarkerAux]
    rw [if_neg (by simp [h0])]
    exact findMarkerAux_eq_none cs (i + 1) (fun d => by simpa using h (d + 1))

/-- `lastMarkerAux` never loses a match it has already recorded. -/
theorem lastMarkerAux_some_ne :
    ∀ (s : List Char) (i k : Nat), lastMarkerAux s i (some k) ≠ none
  | [], _, _ => by simp [lastMarkerAux]
  | c :: cs, i, k => by
    unfold lastMarkerAux
    by_cases h : CODE_BLOCK_MD.isPrefixOf (c :: cs) = true
    · simp only [h, if_true]
      exact lastMarkerAux_some_ne cs (i + 1) i
    · simp only [eq_false_of_ne_true h, Bool.false_eq_true, if_false]
      exact lastMarkerAux_some_ne cs (i + 1) k

/-- With no recorded match, `lastMarkerAux` fails exactly when forward
search fails. -/
theorem lastMarkerAux_none_iff :
    ∀ (s : List Char) (i : Nat), (lastMarkerAux s i none = none ↔ findMarkerAux s i = none)
  | [], _ => by simp [lastMarkerAux, findMarkerAux]
  | c :: cs, i => by
    unfold lastMarkerAux findMarkerAux
    by_cases h : CODE_BLOCK_MD.isPrefixOf (c :: cs) = true
    · simp only [h, if_true]
      constructor
      · intro hn; exact absurd hn (lastMarkerAux_some_ne cs (i + 1) i)
      · intro hn; exact absurd hn (by simp)
    · simp only [eq_false_of_ne_true h, Bool.false_eq_true, if_false]
      exact lastMarkerAux_none_iff cs (i + 1)

/-- `lastIndexOf` misses iff `indexOf` misses. -/
theorem lastIndexOfMarker_none_iff (s : List Char) :
    lastIndexOfMarker s = none ↔ indexOfMarker s = none :=
  lastMarkerAux_none_iff s 0

/-- A found occurrence lies at or beyond the search start. -/
theorem indexOfMarkerFrom_le {s : List Char} {j e : Nat}
    (h : indexOfMarkerFrom s j = some e) : j ≤ e := by
  unfold indexOfMarkerFrom at h
  match hm : indexOfMarker (s.drop j) with
  | none => rw [hm] at h; simp at h
  | some x => rw [hm] at h; simp at h; omega

/-! ## Lemmas about the inner code-block loop -/

/-- The residual buffer contains no completable marker pair: either no
marker at all, or a first marker with no second occurrence disjoint from
it (3 or more positions later). -/
def NoPair (b : List Char) : Prop :=
  indexOfMarker b = none ∨
    ∃ s, indexOfMarker b = some s ∧ indexOfMarkerFrom b (s + 3) = none

/-- When the loop guard fails or the closing marker is missing, the loop
exits at once — for any fuel. -/
theorem processBufferFuel_break {buf : List Char} (fuel : Nat) (h : NoPair buf) :
    processBufferFuel fuel buf = ([], buf) := by
  cases fuel with
  | zero => rfl
  | succ n =>
    rcases h with h1 | ⟨s, h1, h2⟩
    · simp [processBufferFuel, h1]
    · simp [processBufferFuel, h1, h2]

/-- When a complete pair is present, one loop iteration fires. -/
theorem processBufferFuel_step {buf : List Char} {s e : Nat} (fuel : Nat)
    (h1 : indexOfMarker buf = some s) (h2 : indexOfMarkerFrom buf (s + 3) = some e)
    (hf : 1 ≤ fuel) :
    processBufferFuel fuel buf =
      (Wr.plain (buf.take s) :: Wr.block ((buf.drop s).take (e + 3 - s)) ::
        (processBufferFuel (fuel - 1) (buf.drop (e + 3))).1,
       (processBufferFuel (fuel - 1) (buf.drop (e + 3))).2) := by
  cases fuel with
  | zero => omega
  | succ n => simp [processBufferFuel, h1, h2]

/-- With enough fuel (one unit per buffered character suffices), the loop
always stops in a buffer with no completable pair. -/
theorem processBufferFuel_noPair :
    ∀ (fuel : Nat) (buf : List Char), buf.length ≤ fuel →
      NoPair (processBufferFuel fuel buf).2
  | 0, buf, h => by
    have : buf = [] := List.eq_nil_of_length_eq_zero (by omega)
    subst this
    exact Or.inl indexOfMarker_nil
  | fuel + 1, buf, h => by
    match h1 : indexOfMarker buf with
    | none => rw [processBufferFuel_break (fuel + 1) (Or.inl h1)]; exact Or.inl h1
    | some s =>
      match h2 : indexOfMarkerFrom buf (s + 3) with
      | none =>
        rw [processBufferFuel_break (fuel + 1) (Or.inr ⟨s, h1, h2⟩)]
        exact Or.inr ⟨s, h1, h2⟩
      | some e =>
        rw [processBufferFuel_step (fuel + 1) h1 h2 (by omega)]
        have hrest : (buf.drop (e + 3)).length ≤ fuel := by
          have := indexOfMarkerFrom_le h2
          simp only [List.length_drop]
          omega
        simpa using processBufferFuel_noPair fuel (buf.drop (e + 3)) hrest

/-- `deStyle` distributes over concatenation of write lists. -/
theorem deStyle_append (a b : List Wr) : deStyle (a ++ b) = deStyle a ++ deStyle b := by
  simp [deStyle]

/-- The loop's writes followed by its residual buffer reproduce the
buffer it started from, character for character. -/
theorem processBufferFuel_recon :
    ∀ (fuel : Nat) (buf : List Char),
      deStyle (processBufferFuel fuel buf).1 ++ (processBufferFuel fuel buf).2 = buf
  | 0, buf => by simp [processBufferFuel, deStyle]
  | fuel + 1, buf => by
    match h1 : indexOfMarker buf with
    | none => rw [processBufferFuel_break (fuel + 1) (Or.inl h1)]; simp [deStyle]
    | some s =>
      match h2 : indexOfMarkerFrom buf (s + 3) with
      | none =>
        rw [processBufferFuel_break (fuel + 1) (Or.inr ⟨s, h1, h2⟩)]
        simp [deStyle]
      | some e =>
        rw [processBufferFuel_step (fuel + 1) h1 h2 (by omega)]
        simp only [Nat.add_sub_cancel]
        have hse : s + 3 ≤ e := indexOfMarkerFrom_le h2
        have ih := processBufferFuel_recon fuel (buf.drop (e + 3))
        simp only [deStyle, List.map_cons, List.flatten_cons, List.append_assoc] at ih ⊢
        rw [ih, ← List.append_assoc]
        have htake : buf.take s ++ (buf.drop s).take (e + 3 - s) = buf.take (e + 3) := by
          have h3 : s + (e + 3 - s) = e + 3 := by omega
          conv_rhs => rw [← h3]
          rw [List.take_add]
        rw [htake, List.take_append_drop]

/-- Same facts at the `processBuffer` wrapper. -/
theorem processBuffer_noPair (buf : List Char) : NoPair (processBuffer buf).2 :=
  processBufferFuel_noPair buf.length buf le_rfl

theorem processBuffer_recon (buf : List Char) :
    deStyle (processBuffer buf).1 ++ (processBuffer buf).2 = buf :=
  processBufferFuel_recon buf.length buf

/-! ## Lemmas about the read loop -/

/-- Invariant of the suspension points of `printStream`: the buffer is
empty, or it holds a first marker with no disjoint second occurrence. -/
def BufInv (b : List Char) : Prop :=
  b = [] ∨ ∃ s, indexOfMarker b = some s ∧ indexOfMarkerFrom b (s + 3) = none

/-- Every chunk step re-establishes the buffer invariant. -/
theorem stepChunk_bufInv (st : ScanState) (chunk : List Char) :
    BufInv (stepChunk st chunk).buffer := by
  unfold stepChunk
  by_cases h : lastIndexOfMarker (processBuffer (st.buffer ++ chunk)).2 = none
  · rw [if_pos h]
    exact Or.inl rfl
  · rw [if_neg h]
    have hnp := processBuffer_noPair (st.buffer ++ chunk)
    rcases hnp with h1 | h2
    · exact absurd ((lastIndexOfMarker_none_iff _).mpr h1) h
    · exact Or.inr h2

/-- Every chunk step conserves content: what has been written plus what
stays buffered equals everything received so far. -/
theorem stepChunk_recon (st : ScanState) (chunk : List Char) :
    deStyle (stepChunk st chunk).out ++ (stepChunk st chunk).buffer =
      deStyle st.out ++ st.buffer ++ chunk := by
  unfold stepChunk
  have hrec := processBuffer_recon (st.buffer ++ chunk)
  by_cases h : lastIndexOfMarker (processBuffer (st.buffer ++ chunk)).2 = none
  · rw [if_pos h]
    simp only [deStyle_append, List.append_assoc, List.append_nil]
    rw [show deStyle [Wr.plain (processBuffer (st.buffer ++ chunk)).2] =
          (processBuffer (st.buffer ++ chunk)).2 from by simp [deStyle]]
    rw [hrec]
  · rw [if_neg h]
    simp only [deStyle_append, List.append_assoc]
    rw [hrec]

/-- The two step lemmas, folded over any prefix of the fragment stream. -/
theorem foldl_stepChunk_inv (frags : List (List Char)) :
    ∀ st : ScanState, BufInv st.buffer →
      BufInv ((frags.foldl stepChunk st).buffer) ∧
      deStyle ((frags.foldl stepChunk st).out) ++ (frags.foldl stepChunk st).buffer =
        deStyle st.out ++ st.buffer ++ frags.flatten := by
  induction frags with
  | nil => intro st h; exact ⟨h, by simp⟩
  | cons f fs ih =>
    intro st h
    have h1 := stepChunk_bufInv st f
    have h2 := stepChunk_recon st f
    have hrest := ih (stepChunk st f) h1
    refine ⟨hrest.1, ?_⟩
    rw [List.foldl_cons] at *
    rw [hrest.2, h2]
    simp [List.append_assoc]

/-! ## Lemmas about a well-formed fenced block -/

/-- A fenced code block: marker, language tag, newline, payload, newline,
closing marker. -/
def fenceBlock (lang code : List Char) : List Char :=
  CODE_BLOCK_MD ++ lang ++ [nl] ++ code ++ [nl] ++ CODE_BLOCK_MD

theorem fenceBlock_length (lang code : List Char) :
    (fenceBlock lang code).length = lang.length + code.length + 8 := by
  simp [fenceBlock, CODE_BLOCK_MD]
  omega

/-- A (long enough) prefix of a block starts with the opening marker. -/
theorem indexOfMarker_fenceBlock_take (lang code : List Char) {k : Nat} (hk : 3 ≤ k) :
    indexOfMarker ((fenceBlock lang code).take k) = some 0 := by
  have h : (fenceBlock lang code).take k =
      CODE_BLOCK_MD ++ (lang ++ [nl] ++ code ++ [nl] ++ CODE_BLOCK_MD).take (k - 3) := by
    unfold fenceBlock
    rw [show CODE_BLOCK_MD ++ lang ++ [nl] ++ code ++ [nl] ++ CODE_BLOCK_MD =
          CODE_BLOCK_MD ++ (lang ++ [nl] ++ code ++ [nl] ++ CODE_BLOCK_MD) from by
        simp [List.append_assoc]]
    rw [List.take_append_eq_append_take]
    congr 1
    exact List.take_of_length_le (by simp [CODE_BLOCK_MD]; omega)
  rw [h]
  exact findMarkerAux_of_marker 0 (marker_isPrefixOf_append _)

/-- The whole block starts with the opening marker. -/
theorem indexOfMarker_fenceBlock (lang code : List Char) :
    indexOfMarker (fenceBlock lang code) = some 0 := by
  have := indexOfMarker_fenceBlock_take lang code (k := (fenceBlock lang code).length)
    (by rw [fenceBlock_length]; omega)
  rwa [List.take_length] at this

/-- In any strict prefix of a block whose closing search on the full
block finds exactly the final fence (no full marker in the interior), the
search for the closing marker (from offset 3) fails. -/
theorem indexOfMarkerFrom_fenceBlock_take (lang code : List Char) {k : Nat}
    (hmk : indexOfMarkerFrom (fenceBlock lang code) 3
      = some ((fenceBlock lang code).length - 3))
    (hk : k < (fenceBlock lang code).length) :
    indexOfMarkerFrom ((fenceBlock lang code).take k) 3 = none := by
  have hL : (fenceBlock lang code).length = lang.length + code.length + 8 :=
    fenceBlock_length lang code
  have hdrop3 : indexOfMarker ((fenceBlock lang code).drop 3)
      = some ((fenceBlock lang code).length - 6) := by
    unfold indexOfMarkerFrom at hmk
    match hm : indexOfMarker ((fenceBlock lang code).drop 3) with
    | none => rw [hm] at hmk; simp at hmk
    | some x =>
      rw [hm] at hmk
      simp only [Option.map_some', Option.some.injEq] at hmk
      exact congrArg some (by omega)
  have hmin := findMarkerAux_min _ 0 _ hdrop3
  unfold indexOfMarkerFrom
  have hnone : indexOfMarker (((fenceBlock lang code).take k).drop 3) = none := by
    unfold indexOfMarker
    apply findMarkerAux_eq_none
    intro d
    by_cases hx : CODE_BLOCK_MD.isPrefixOf
        ((((fenceBlock lang code).take k).drop 3).drop d) = true
    · exfalso
      have hre : (((fenceBlock lang code).take k).drop 3).drop d
          = ((fenceBlock lang code).drop (3 + d)).take (k - (3 + d)) := by
        rw [List.drop_drop, List.drop_take]
      rw [hre] at hx
      have hfit : 3 ≤ k - (3 + d) := by
        have := marker_isPrefixOf_length _ hx
        rw [List.length_take] at this
        omega
      have hfull : CODE_BLOCK_MD.isPrefixOf ((fenceBlock lang code).drop (3 + d)) = true :=
        isPrefixOf_of_take _ _ _ hx
      have hpos : CODE_BLOCK_MD.isPrefixOf (((fenceBlock lang code).drop 3).drop d)
          = true := by
        rw [List.drop_drop]
        exact hfull
      have hlt : 0 + d < (fenceBlock lang code).length - 6 := by omega
      rw [hmin d hlt] at hpos
      exact Bool.false_ne_true hpos
    · exact eq_false_of_ne_true hx
  rw [hnone]
  rfl

/-- The inner loop consumes a complete block whole: the empty text before
it, the block itself, and an empty residual buffer. -/
theorem processBuffer_fenceBlock (lang code : List Char)
    (hmk : indexOfMarkerFrom (fenceBlock lang code) 3
      = some ((fenceBlock lang code).length - 3)) :
    processBuffer (fenceBlock lang code) =
      ([Wr.plain [], Wr.block (fenceBlock lang code)], []) := by
  unfold processBuffer
  rw [processBufferFuel_step (fenceBlock lang code).length
    (indexOfMarker_fenceBlock lang code) hmk (by rw [fenceBlock_length]; omega)]
  have h3 : (fenceBlock lang code).length - 3 + 3 = (fenceBlock lang code).length := by
    rw [fenceBlock_length]
    omega
  rw [h3, List.drop_length]
  rw [processBufferFuel_break _ (Or.inl indexOfMarker_nil)]
  simp [List.take_length]

/-- On a strict prefix of such a block, the inner loop does nothing (the
closing marker has not arrived). -/
theorem processBuffer_fenceBlock_take (lang code : List Char) {k : Nat}
    (hmk : indexOfMarkerFrom (fenceBlock lang code) 3
      = some ((fenceBlock lang code).length - 3))
    (hk3 : 3 ≤ k) (hk : k < (fenceBlock lang code).length) :
    processBuffer ((fenceBlock lang code).take k) = ([], (fenceBlock lang code).take k) :=
  processBufferFuel_break _ (Or.inr ⟨0, indexOfMarker_fenceBlock_take lang code hk3,
    indexOfMarkerFrom_fenceBlock_take lang code hmk hk⟩)

/-- A chunk step that leaves nothing in the residual buffer flushes the
(empty) remainder as plain text. -/
theorem stepChunk_flush (st : ScanState) (chunk : List Char) (ws : List Wr)
    (h : processBuffer (st.buffer ++ chunk) = (ws, [])) :
    stepChunk st chunk =
      { buffer := [], out := st.out ++ ws ++ [Wr.plain []],
        fullResponse := st.fullResponse ++ chunk } := by
  simp only [stepChunk]
  rw [h]
  simp [lastIndexOfMarker_nil]

/-- A chunk step whose residual buffer still holds a marker keeps it. -/
theorem stepChunk_hold (st : ScanState) (chunk : List Char) (ws : List Wr)
    (b : List Char) (h : processBuffer (st.buffer ++ chunk) = (ws, b))
    (hb : indexOfMarker b ≠ none) :
    stepChunk st chunk =
      { buffer := b, out := st.out ++ ws, fullResponse := st.fullResponse ++ chunk } := by
  simp only [stepChunk]
  rw [h]
  rw [if_neg (fun hn => hb ((lastIndexOfMarker_none_iff b).mp hn))]

/-- Feeding a well-formed block as a single fragment renders the styled
block followed by the final newline. -/
theorem renderOut_fenceBlock (sty : Styler) (lang code : List Char)
    (hmk : indexOfMarkerFrom (fenceBlock lang code) 3
      = some ((fenceBlock lang code).length - 3)) :
    renderOut sty [fenceBlock lang code] =
      highlightCode sty (fenceBlock lang code) ++ [nl] := by
  unfold renderOut printStream
  rw [show ([fenceBlock lang code] : List (List Char)).foldl stepChunk initState =
        stepChunk initState (fenceBlock lang code) from rfl]
  rw [stepChunk_flush initState _ _
    (by rw [show initState.buffer ++ fenceBlock lang code = fenceBlock lang code from by
          simp [initState]]
        exact processBuffer_fenceBlock lang code hmk)]
  unfold finishStream
  simp [initState, renderWr]

/-- Splitting a well-formed block at any boundary other than the interior
of its opening marker renders exactly what the unsplit block renders. -/
theorem renderOut_fenceBlock_split (sty : Styler) (lang code : List Char)
    (hmk : indexOfMarkerFrom (fenceBlock lang code) 3
      = some ((fenceBlock lang code).length - 3))
    (k : Nat) (hk1 : k ≠ 1) (hk2 : k ≠ 2) :
    renderOut sty [(fenceBlock lang code).take k, (fenceBlock lang code).drop k] =
      renderOut sty [fenceBlock lang code] := by
  rw [renderOut_fenceBlock sty lang code hmk]
  have hfold : ∀ a b : List Char,
      ([a, b] : List (List Char)).foldl stepChunk initState =
        stepChunk (stepChunk initState a) b := fun a b => rfl
  rcases Nat.lt_or_ge k 3 with hksmall | hk3
  · -- k = 0 (1 and 2 are excluded)
    have hk0 : k = 0 := by omega
    subst hk0
    unfold renderOut printStream
    rw [hfold, List.take_zero, List.drop_zero]
    rw [stepChunk_flush initState [] [] (by simp [initState, processBuffer, processBufferFuel])]
    rw [stepChunk_flush _ _ _
      (by rw [show ({ buffer := [], out := initState.out ++ [] ++ [Wr.plain []],
                      fullResponse := initState.fullResponse ++ [] } : ScanState).buffer
                ++ fenceBlock lang code = fenceBlock lang code from by simp]
          exact processBuffer_fenceBlock lang code hmk)]
    unfold finishStream
    simp [initState, renderWr]
  · rcases Nat.lt_or_ge k (fenceBlock lang code).length with hklt | hkge
    · -- the boundary is inside the block, past the opening marker
      unfold renderOut printStream
      rw [hfold]
      rw [stepChunk_hold initState _ [] ((fenceBlock lang code).take k)
        (by rw [show initState.buffer ++ (fenceBlock lang code).take k =
                  (fenceBlock lang code).take k from by simp [initState]]
            exact processBuffer_fenceBlock_take lang code hmk hk3 hklt)
        (by rw [indexOfMarker_fenceBlock_take lang code hk3]; simp)]
      rw [stepChunk_flush _ _ _
        (by rw [show ({ buffer := (fenceBlock lang code).take k, out := initState.out ++ [],
                        fullResponse := initState.fullResponse ++ (fenceBlock lang code).take k }
                  : ScanState).buffer ++ (fenceBlock lang code).drop k =
                  fenceBlock lang code from by simp [List.take_append_drop]]
            exact processBuffer_fenceBlock lang code hmk)]
      unfold finishStream
      simp [initState, renderWr]
    · -- the boundary is at or past the end of the block
      have htake : (fenceBlock lang code).take k = fenceBlock lang code :=
        List.take_of_length_le hkge
      have hdrop : (fenceBlock lang code).drop k = [] :=
        List.drop_eq_nil_of_le hkge
      rw [htake, hdrop]
      unfold renderOut printStream
      rw [hfold]
      rw [stepChunk_flush initState _ _
        (by rw [show initState.buffer ++ fenceBlock lang code = fenceBlock lang code from by
              simp [initState]]
            exact processBuffer_fenceBlock lang code hmk)]
      rw [stepChunk_flush _ _ []
        (by simp [processBuffer, processBufferFuel])]
      unfold finishStream
      simp [initState, renderWr]

/-! ## Claims about the scanner -/

/-- C1 (counterexample): the claim fails as stated.  Splitting the block
`"```js\nconsole.log(1)\n```"` at byte boundary 1 — inside the opening
fence marker — makes `printStream` flush the lone backtick as plain text,
so the block is never recognised and the final rendered output differs
from the single-fragment case. -/
theorem C1_counterexample :
    "```js\nconsole.log(1)\n```".toList.take 1 ++ "```js\nconsole.log(1)\n```".toList.drop 1
      = "```js\nconsole.log(1)\n```".toList
    ∧ renderOut stTest ["```js\nconsole.log(1)\n```".toList.take 1,
        "```js\nconsole.log(1)\n```".toList.drop 1]
      ≠ renderOut stTest ["```js\nconsole.log(1)\n```".toList] := by
  constructor
  · decide
  · decide

/-- C1 (amended): for a fenced code block whose interior contains no full
3-backtick marker — stated as: the search for the closing marker from
offset 3 on the whole block finds exactly the final fence (isolated
backticks and double-backtick runs in the tag or payload are allowed) —
feeding the block split at any byte boundary other than the two interior
positions of the opening fence marker (offsets 1 and 2) yields the
identical final rendered terminal output as feeding it as one single
fragment, for every styling capability. -/
theorem C1_split_invariance (sty : Styler) (lang code : List Char)
    (hmk : indexOfMarkerFrom (fenceBlock lang code) 3
      = some ((fenceBlock lang code).length - 3))
    (k : Nat) (hk1 : k ≠ 1) (hk2 : k ≠ 2) :
    renderOut sty [(fenceBlock lang code).take k, (fenceBlock lang code).drop k] =
      renderOut sty [fenceBlock lang code] :=
  renderOut_fenceBlock_split sty lang code hmk k hk1 hk2

/-- Witness for C1 (amended) at a block whose payload contains an
isolated backtick and a double-backtick run, split after byte 7. -/
theorem C1_split_invariance_witness :
    indexOfMarkerFrom (fenceBlock "js".toList "a`b``c".toList) 3
      = some ((fenceBlock "js".toList "a`b``c".toList).length - 3)
    ∧ renderOut stTest [(fenceBlock "js".toList "a`b``c".toList).take 7,
        (fenceBlock "js".toList "a`b``c".toList).drop 7] =
      renderOut stTest [fenceBlock "js".toList "a`b``c".toList] :=
  ⟨by decide,
   C1_split_invariance stTest "js".toList "a`b``c".toList
     (by decide) 7 (by decide) (by decide)⟩

/-- C2: the claim is right and the code is wrong.  When the stream ends
while a fence is open, the `done` branch feeds the buffer to
`highlightCode`, which styles it as a block and drops its last line —
here the entire payload `console.log(1)` vanishes from the terminal
output instead of being emitted verbatim as plain text. -/
theorem C2_unterminated_eval :
    renderOut stTest ["```js\nconsole.log(1)".toList] =
      (Char.ofNat 27 :: "```".toList) ++ (Char.ofNat 27 :: "js".toList)
        ++ "\n\n".toList ++ (Char.ofNat 27 :: "```".toList) ++ "\n".toList
    ∧ renderOut stTest ["```js\nconsole.log(1)".toList]
        ≠ "```js\nconsole.log(1)\n".toList := by
  constructor
  · decide
  · decide

/-- C6: the claim is right and the code is wrong.  The `done` branch runs
`fullResponse += buffer` although every chunk was already accumulated, so
when the stream ends with an unflushed buffer the side channel duplicates
that tail instead of equalling the concatenation of the fragments. -/
theorem C6_sideChannel_eval :
    (printStream ["a```b".toList]).fullResponse = "a```ba```b".toList
    ∧ (printStream ["a```b".toList]).fullResponse
        ≠ (["a```b".toList] : List (List Char)).flatten := by
  constructor
  · decide
  · decide

/-- C9 (counterexample): the claim fails as stated.  After the single
fragment `"````"` (four backticks) the scanner suspends with that buffer,
which contains two (overlapping) occurrences of the 3-backtick marker,
not at most one. -/
theorem C9_counterexample :
    countMarker ((([[tick, tick, tick, tick]] : List (List Char)).foldl
        stepChunk initState).buffer) = 2
    ∧ ¬ countMarker ((([[tick, tick, tick, tick]] : List (List Char)).foldl
        stepChunk initState).buffer) ≤ 1 := by
  constructor
  · decide
  · decide

/-- C9 (amended): whenever `printStream` suspends to wait for the next
fragment, its buffer is empty or holds a first marker occurrence with no
second occurrence disjoint from it (3 or more positions later) — so at
most one non-overlapping occurrence and no completable marker pair — and
everything received so far outside the buffer has already been written
out, in order (writes plus buffer reproduce the de-styled input). -/
theorem C9_buffer_invariant (frags : List (List Char)) :
    BufInv ((frags.foldl stepChunk initState).buffer) ∧
    deStyle ((frags.foldl stepChunk initState).out)
      ++ (frags.foldl stepChunk initState).buffer = frags.flatten := by
  have h := foldl_stepChunk_inv frags initState (Or.inl rfl)
  simpa [initState, deStyle] using h

/-! ## Lemmas about the conversation store -/

theorem sortAsc_pair {α : Type} (key : α → Nat) (u a : α) (h : key u < key a) :
    sortAsc key [u, a] = [u, a] := by
  simp [sortAsc, insertAsc, Nat.not_le.mpr h]

/-- The pointer query on a one-row table returns that row's conversation. -/
theorem getCurrentConversationId_single (db : Store) (r : CurrentRow)
    (h : db.current = [r]) : getCurrentConversationId db = some r.conversationId := by
  simp [getCurrentConversationId, h, sortDesc, insertDesc]

/-- Bumping `updatedAt` of one conversation row never changes ids. -/
theorem conv_ids_map_touch (l : List Conv) (x t : Nat) :
    (l.map (fun c => if c.id = x then { c with updatedAt := t } else c)).map
        (fun c => c.id) = l.map (fun c => c.id) := by
  induction l with
  | nil => rfl
  | cons c cs ih => by_cases h : c.id = x <;> simp [h, ih]

/-- Explicit form of `createConversation`. -/
theorem createConversation_eq (db : Store) :
    createConversation db = (db.nextId,
      { conversations := db.conversations
          ++ [{ id := db.nextId, createdAt := db.clock, updatedAt := db.clock }],
        messages := db.messages, current := db.current,
        clock := db.clock + 1, nextId := db.nextId + 1 }) := by
  simp [createConversation, nanoid, tickClock]

/-- Explicit form of `saveMessage` when a new conversation is created
(`createNewConversation` set, any `conversationId`). -/
theorem saveMessage_createNew_eq (db : Store) (cidOpt : Option Nat) (role : Role)
    (content : List Char) :
    saveMessage db { conversationId := cidOpt, role := role, content := content,
                     createNewConversation := true } =
      (db.nextId,
       { conversations :=
           db.conversations.map
             (fun c => if c.id = db.nextId then { c with updatedAt := db.clock + 1 } else c)
           ++ [{ id := db.nextId, createdAt := db.clock, updatedAt := db.clock + 1 }],
         messages := db.messages
           ++ [{ id := db.nextId + 1, conversationId := db.nextId, role := role,
                 content := content, createdAt := db.clock + 1 }],
         current := [{ rowId := 1, conversationId := db.nextId, updatedAt := db.clock + 2 }],
         clock := db.clock + 3, nextId := db.nextId + 2 }) := by
  simp [saveMessage, createConversation, nanoid, tickClock, setCurrentConversation]

/-- Explicit form of `saveMessage` when no id is supplied (a conversation
is created as well). -/
theorem saveMessage_noId_eq (db : Store) (role : Role) (content : List Char) :
    saveMessage db { conversationId := none, role := role, content := content,
                     createNewConversation := false } =
      saveMessage db { conversationId := none, role := role, content := content,
                       createNewConversation := true } := by
  simp [saveMessage]

/-- Explicit form of `saveMessage` on a supplied conversation id. -/
theorem saveMessage_existing_eq (db : Store) (cid : Nat) (role : Role)
    (content : List Char) :
    saveMessage db { conversationId := some cid, role := role, content := content,
                     createNewConversation := false } =
      (cid,
       { conversations := db.conversations.map
           (fun c => if c.id = cid then { c with updatedAt := db.clock } else c),
         messages := db.messages
           ++ [{ id := db.nextId, conversationId := cid, role := role,
                 content := content, createdAt := db.clock }],
         current := [{ rowId := 1, conversationId := cid, updatedAt := db.clock + 1 }],
         clock := db.clock + 2, nextId := db.nextId + 1 }) := by
  simp [saveMessage, nanoid, tickClock, setCurrentConversation]

/-! ## Claims about the conversation store -/

/-- C3 (counterexample): the claim fails as stated.  A `saveMessage` call
that supplies a conversation id absent from the `conversations` table
(foreign keys are not enforced) completes and leaves the single pointer
row referencing a conversation that does not exist. -/
theorem C3_counterexample :
    (saveMessage emptyStore { conversationId := some 99, role := .user,
                              content := "x".toList }).2.current.map
        (fun r => r.conversationId) = [99]
    ∧ (saveMessage emptyStore { conversationId := some 99, role := .user,
                                content := "x".toList }).2.conversations.map
        (fun c => c.id) = [] := by
  constructor
  · rfl
  · rfl

/-- C3 (amended): after every completed `saveMessage` call — with any
arguments whatsoever — exactly one current-conversation pointer row
exists and it references the conversation the message was appended to;
that conversation additionally exists whenever the call created it
(`createNewConversation` set or no id supplied) or the supplied id
already existed.  In particular, after two successive `saveMessage`
calls with `createNewConversation = true`, `getCurrentConversationId`
returns the id of the second (most recently created) conversation. -/
theorem C3_pointer_invariant :
    (∀ (db : Store) (opts : SaveMessageOptions),
        (saveMessage db opts).2.current.map (fun r => r.conversationId)
          = [(saveMessage db opts).1])
    ∧ (∀ (db : Store) (opts : SaveMessageOptions),
        (opts.createNewConversation = true ∨ opts.conversationId = none ∨
          (∃ cid, opts.conversationId = some cid ∧
            cid ∈ db.conversations.map (fun c => c.id))) →
        (saveMessage db opts).1 ∈
          (saveMessage db opts).2.conversations.map (fun c => c.id))
    ∧ (∀ (db : Store) (o1 o2 : SaveMessageOptions),
        o1.createNewConversation = true → o2.createNewConversation = true →
        getCurrentConversationId (saveMessage (saveMessage db o1).2 o2).2
            = some (saveMessage (saveMessage db o1).2 o2).1
          ∧ (saveMessage (saveMessage db o1).2 o2).1 ≠ (saveMessage db o1).1) := by
  refine ⟨?_, ?_, ?_⟩
  · rintro db ⟨cidOpt, role, content, createNew⟩
    cases createNew with
    | true =>
      rw [saveMessage_createNew_eq]
      rfl
    | false =>
      cases cidOpt with
      | none =>
        rw [saveMessage_noId_eq, saveMessage_createNew_eq]
        rfl
      | some cid =>
        rw [saveMessage_existing_eq]
        rfl
  · rintro db ⟨cidOpt, role, content, createNew⟩ h
    cases createNew with
    | true =>
      rw [saveMessage_createNew_eq]
      simp
    | false =>
      cases cidOpt with
      | none =>
        rw [saveMessage_noId_eq, saveMessage_createNew_eq]
        simp
      | some cid =>
        rw [saveMessage_existing_eq]
        rcases h with h | h | ⟨cid2, hEq, hmem⟩
        · simp at h
        · simp at h
        · simp only [Option.some.injEq] at hEq
          subst hEq
          rw [conv_ids_map_touch]
          exact hmem
  · rintro db ⟨cid1, r1, ct1, cn1⟩ ⟨cid2, r2, ct2, cn2⟩ h1 h2
    simp only at h1 h2
    subst h1; subst h2
    rw [saveMessage_createNew_eq, saveMessage_createNew_eq]
    constructor
    · simp [getCurrentConversationId, sortDesc, insertDesc]
    · simp

/-- Concrete option records used by witnesses. -/
def newUserOpts : SaveMessageOptions :=
  { role := .user, content := "x".toList, createNewConversation := true }

/-- Concrete option record creating a conversation with a system message. -/
def newSystemOpts : SaveMessageOptions :=
  { role := .system, content := [], createNewConversation := true }

/-- Witness for C3 (amended) applying both conjuncts at concrete inputs. -/
theorem C3_pointer_invariant_witness :
    ((saveMessage emptyStore newUserOpts).2.current.map (fun r => r.conversationId)
        = [(saveMessage emptyStore newUserOpts).1])
    ∧ (saveMessage emptyStore newUserOpts).1 ∈
        (saveMessage emptyStore newUserOpts).2.conversations.map (fun c => c.id)
    ∧ getCurrentConversationId
        (saveMessage (saveMessage emptyStore newSystemOpts).2 newSystemOpts).2
        = some (saveMessage (saveMessage emptyStore newSystemOpts).2 newSystemOpts).1 :=
  ⟨C3_pointer_invariant.1 emptyStore newUserOpts,
   C3_pointer_invariant.2.1 emptyStore newUserOpts (Or.inl rfl),
   (C3_pointer_invariant.2.2 emptyStore newSystemOpts newSystemOpts rfl rfl).1⟩

/-- C5: conversation round-trip.  In any store whose messages reference
only already-allocated conversation ids, creating a conversation,
appending a user message and then an assistant message, and reading the
conversation back yields exactly those two messages, in append order,
with roles and contents preserved. -/
theorem C5_roundtrip (db : Store)
    (h : ∀ m ∈ db.messages, m.conversationId < db.nextId) (cu ca : List Char) :
    (getConversation
        (saveMessage
          (saveMessage (createConversation db).2
            { conversationId := some (createConversation db).1, role := .user,
              content := cu }).2
          { conversationId := some (createConversation db).1, role := .assistant,
            content := ca }).2
        (createConversation db).1).map (fun m => (m.role, m.content))
      = [(.user, cu), (.assistant, ca)] := by
  rw [createConversation_eq]
  rw [saveMessage_existing_eq]
  rw [saveMessage_existing_eq]
  unfold getConversation
  simp only [List.filter_append, List.append_assoc]
  have hold : db.messages.filter (fun m => m.conversationId == db.nextId) = [] := by
    rw [List.filter_eq_nil_iff]
    intro m hm
    have := h m hm
    simp
    omega
  rw [hold]
  have hu : (([{ id := db.nextId + 1, conversationId := db.nextId, role := Role.user,
                 content := cu, createdAt := db.clock + 1 }] : List Msg).filter
      (fun m => m.conversationId == db.nextId)) =
      [{ id := db.nextId + 1, conversationId := db.nextId, role := Role.user,
         content := cu, createdAt := db.clock + 1 }] := by simp
  have ha : (([{ id := db.nextId + 2, conversationId := db.nextId, role := Role.assistant,
                 content := ca, createdAt := db.clock + 3 }] : List Msg).filter
      (fun m => m.conversationId == db.nextId)) =
      [{ id := db.nextId + 2, conversationId := db.nextId, role := Role.assistant,
         content := ca, createdAt := db.clock + 3 }] := by simp
  rw [hu, ha]
  rw [List.nil_append]
  simp only [List.singleton_append]
  rw [sortAsc_pair _ _ _ (by simp)]
  rfl

/-- Witness for C5 at the empty store. -/
theorem C5_roundtrip_witness :
    (getConversation
        (saveMessage
          (saveMessage (createConversation emptyStore).2
            { conversationId := some (createConversation emptyStore).1, role := .user,
              content := "hi".toList }).2
          { conversationId := some (createConversation emptyStore).1, role := .assistant,
            content := "yo".toList }).2
        (createConversation emptyStore).1).map (fun m => (m.role, m.content))
      = [(.user, "hi".toList), (.assistant, "yo".toList)] :=
  C5_roundtrip emptyStore (by simp [emptyStore]) "hi".toList "yo".toList

/-- C7: the conversation-selection policy in general-assistant mode.
With the `new` flag a fresh conversation is always created (the id list
gains exactly the returned id); without it, a missing pointer leads to a
fresh conversation, and an existing pointer is reused with the store left
completely untouched. -/
theorem C7_selection_policy (db : Store) :
    ((selectConversation db true).2.1.conversations.map (fun c => c.id)
        = db.conversations.map (fun c => c.id) ++ [(selectConversation db true).1])
    ∧ (getCurrentConversationId db = none →
        (selectConversation db false).2.1.conversations.map (fun c => c.id)
          = db.conversations.map (fun c => c.id) ++ [(selectConversation db false).1])
    ∧ (∀ c, getCurrentConversationId db = some c →
        selectConversation db false = (c, db, [continueLog c])) := by
  refine ⟨?_, ?_, ?_⟩
  · unfold selectConversation
    simp only [if_pos rfl]
    rw [saveMessage_createNew_eq]
    simp
    intro a _
    by_cases hid : a.id = db.nextId <;> simp [hid]
  · intro h
    unfold selectConversation
    simp only [if_neg Bool.false_ne_true, h]
    rw [saveMessage_createNew_eq]
    simp
    intro a _
    by_cases hid : a.id = db.nextId <;> simp [hid]
  · intro c h
    unfold selectConversation
    simp only [if_neg Bool.false_ne_true, h]

/-- Witness for C7 applying all three conjuncts at the empty store. -/
theorem C7_selection_policy_witness :
    ((selectConversation emptyStore true).2.1.conversations.map (fun c => c.id)
        = emptyStore.conversations.map (fun c => c.id)
          ++ [(selectConversation emptyStore true).1])
    ∧ ((selectConversation emptyStore false).2.1.conversations.map (fun c => c.id)
        = emptyStore.conversations.map (fun c => c.id)
          ++ [(selectConversation emptyStore false).1]) :=
  ⟨(C7_selection_policy emptyStore).1,
   (C7_selection_policy emptyStore).2.1 rfl⟩

/-! ## Claims about the orchestrator -/

/-- A trivially successful provider response, for witnesses. -/
def respOk : ResponseModel := { ok := true, errorBody := [], body := some [] }

/-- In search mode, the post-credential part of `processAiCommand`
returns the store untouched and its observable outputs do not depend on
the store at all. -/
theorem commandCore_search (apiKey prompt : List Char) (options : OptionsRec)
    (h : options.search = true) (resp : ResponseModel) (db : Store) :
    (commandCore apiKey prompt options resp db).db = db
    ∧ ∀ db2 : Store,
        (commandCore apiKey prompt options resp db2).result
            = (commandCore apiKey prompt options resp db).result
      ∧ (commandCore apiKey prompt options resp db2).logs
            = (commandCore apiKey prompt options resp db).logs
      ∧ (commandCore apiKey prompt options resp db2).request
            = (commandCore apiKey prompt options resp db).request
      ∧ (commandCore apiKey prompt options resp db2).terminal
            = (commandCore apiKey prompt options resp db).terminal := by
  rcases resp with ⟨ok, errBody, body⟩
  cases ok with
  | false =>
    constructor
    · simp [commandCore, genStreamResponse, h]
    · intro db2
      simp [commandCore, genStreamResponse, h]
  | true =>
    cases body with
    | none =>
      constructor
      · simp [commandCore, genStreamResponse, h]
      · intro db2
        simp [commandCore, genStreamResponse, h]
    | some frags =>
      constructor
      · simp [commandCore, genStreamResponse, h]
      · intro db2
        simp [commandCore, genStreamResponse, h]

/-- C4: every invocation in web-search mode (search flag set, or a
non-empty — or `undefined` — URL hint, which forces search mode) neither
reads from nor writes to the conversation store: the store comes back
unchanged, and the result, logs, provider request and terminal output are
the same whatever store the command runs against. -/
theorem C4_search_frame (env : Env) (argv : List (List Char)) (resp : ResponseModel)
    (db : Store) (prompt : List Char) (opts : OptionsRec)
    (hp : parseArgs argv = .ok (prompt, opts))
    (hs : opts.search = true ∨ opts.url ≠ some []) :
    (processAiCommand env argv resp db).db = db
    ∧ ∀ db2 : Store,
        (processAiCommand env argv resp db2).result
            = (processAiCommand env argv resp db).result
      ∧ (processAiCommand env argv resp db2).logs
            = (processAiCommand env argv resp db).logs
      ∧ (processAiCommand env argv resp db2).request
            = (processAiCommand env argv resp db).request
      ∧ (processAiCommand env argv resp db2).terminal
            = (processAiCommand env argv resp db).terminal := by
  rcases env with ⟨ak, pk⟩
  cases ak with
  | none => exact ⟨rfl, fun db2 => ⟨rfl, rfl, rfl, rfl⟩⟩
  | some anthropicKey =>
    by_cases hh : opts.help = true
    · refine ⟨?_, fun db2 => ?_⟩
      · simp [processAiCommand, hp, hh]
      · simp [processAiCommand, hp, hh]
    · by_cases hv : opts.version = true
      · refine ⟨?_, fun db2 => ?_⟩
        · simp [processAiCommand, hp, hh, hv]
        · simp [processAiCommand, hp, hh, hv]
      · by_cases hpr : prompt = []
        · refine ⟨?_, fun db2 => ?_⟩
          · simp [processAiCommand, hp, hh, hv, hpr]
          · simp [processAiCommand, hp, hh, hv, hpr]
        · have hstep : ∀ dbx : Store,
              processAiCommand { anthropicKey := some anthropicKey, perplexityKey := pk }
                  argv resp dbx =
                match pk with
                | none =>
                  { result := CmdResult.err
                      "PERPLEXITY_API_KEY must be set as an environment variable".toList,
                    db := dbx, logs := [], request := none, terminal := [] }
                | some perplexityKey =>
                  commandCore perplexityKey prompt { opts with search := true } resp dbx := by
            intro dbx
            simp only [processAiCommand, hp]
            rw [if_neg hh, if_neg hv, if_neg hpr, if_pos hs]
          simp only [hstep]
          cases pk with
          | none => exact ⟨rfl, fun db2 => ⟨rfl, rfl, rfl, rfl⟩⟩
          | some perplexityKey =>
            exact commandCore_search perplexityKey prompt _ rfl resp db

/-- Witness for C4: a concrete `-s` invocation against the empty store. -/
theorem C4_search_frame_witness :
    (processAiCommand { anthropicKey := some "a".toList, perplexityKey := some "p".toList }
        ["-s".toList, "hi".toList] respOk emptyStore).db = emptyStore :=
  (C4_search_frame { anthropicKey := some "a".toList, perplexityKey := some "p".toList }
    ["-s".toList, "hi".toList] respOk emptyStore "hi".toList
    { help := false, url := some [], search := true, version := false, new := false }
    (by rfl) (Or.inl rfl)).1

/-- C8: the claim is right and the code is wrong.  `await
main().catch(console.error)` catches every thrown error, so the process
always exits with status 0 — also on fatal errors such as a missing
`ANTHROPIC_API_KEY` with a prompt supplied, where the claim demands a
non-zero status. -/
theorem C8_exit_code_eval :
    (∀ (env : Env) (argv : List (List Char)) (resp : ResponseModel) (db : Store),
        (runMain env argv resp db).1 = 0)
    ∧ (processAiCommand { anthropicKey := none, perplexityKey := none }
        ["hi".toList] respOk emptyStore).result
        = .err "ANTHROPIC_API_KEY must be set as an environment variable".toList := by
  constructor
  · intro env argv resp db
    unfold runMain
    rcases hr : (processAiCommand env argv resp db).result <;> simp [hr]
  · rfl

/-- C10: `ANTHROPIC_API_KEY` is demanded on every invocation, before
argument parsing: without it the command throws the key error whatever
the arguments (help, version, search, even unparseable flags), touching
neither the provider nor the store; and in web-search mode (reached past
help/version/prompt checks) `PERPLEXITY_API_KEY` is additionally
required. -/
theorem C10_credential_order :
    (∀ (argv : List (List Char)) (resp : ResponseModel) (db : Store)
        (pk : Option (List Char)),
        (processAiCommand { anthropicKey := none, perplexityKey := pk }
            argv resp db).result
            = .err "ANTHROPIC_API_KEY must be set as an environment variable".toList
          ∧ (processAiCommand { anthropicKey := none, perplexityKey := pk }
              argv resp db).request = none
          ∧ (processAiCommand { anthropicKey := none, perplexityKey := pk }
              argv resp db).db = db)
    ∧ (∀ (ak : List Char) (argv : List (List Char)) (resp : ResponseModel)
          (db : Store) (prompt : List Char) (opts : OptionsRec),
        parseArgs argv = .ok (prompt, opts) →
        opts.help = false → opts.version = false → prompt ≠ [] →
        (opts.search = true ∨ opts.url ≠ some []) →
        (processAiCommand { anthropicKey := some ak, perplexityKey := none }
            argv resp db).result
            = .err "PERPLEXITY_API_KEY must be set as an environment variable".toList
          ∧ (processAiCommand { anthropicKey := some ak, perplexityKey := none }
              argv resp db).request = none) := by
  constructor
  · intro argv resp db pk
    exact ⟨rfl, rfl, rfl⟩
  · intro ak argv resp db prompt opts hp hh hv hpr hs
    simp only [processAiCommand, hp]
    rw [if_neg (by simp [hh]), if_neg (by simp [hv]), if_neg hpr, if_pos hs]
    exact ⟨rfl, rfl⟩

/-- Witness for C10 applying both conjuncts at concrete invocations. -/
theorem C10_credential_order_witness :
    (processAiCommand { anthropicKey := none, perplexityKey := none }
        ["-h".toList] respOk emptyStore).result
        = .err "ANTHROPIC_API_KEY must be set as an environment variable".toList
    ∧ (processAiCommand { anthropicKey := some "k".toList, perplexityKey := none }
        ["-s".toList, "hi".toList] respOk emptyStore).result
        = .err "PERPLEXITY_API_KEY must be set as an environment variable".toList :=
  ⟨(C10_credential_order.1 ["-h".toList] respOk emptyStore none).1,
   (C10_credential_order.2 "k".toList ["-s".toList, "hi".toList] respOk emptyStore
      "hi".toList
      { help := false, url := some [], search := true, version := false, new := false }
      (by rfl) rfl rfl (by decide) (Or.inl rfl)).1⟩

end AiCli

